import Mathlib

/-!
Verification of `src/utils/bilibili_enhanced_tool.py`.

The file embeds, as executable Lean definitions, the pure computational
core of the tool: the BV-string / AV-number identifier codec
(`bvid2aid`, `aid2bvid`), the WBI parameter canonicalization step of
`encWbi`, the constructor credential check, and the control flow of the
facade operations `get_video_info` and `get_video_subtitle` (with their
network collaborators abstracted as oracle arguments and their printed
diagnostics reified as a message trace).  Python exceptions are embedded
as `none` / error results.
-/

namespace Bili

/-! ### Identifier codec (lines 158-205 of the source) -/

/-- The 58-symbol alphabet `data` of `bvid2aid` / `aid2bvid`, in source order. -/
def ALPHABET : List Char :=
  ['F', 'c', 'w', 'A', 'P', 'N', 'K', 'T', 'M', 'u', 'g', '3', 'G', 'V', '5', 'L',
   'j', '7', 'E', 'J', 'n', 'H', 'p', 'W', 's', 'x', '4', 't', 'b', '8', 'h', 'a',
   'Y', 'e', 'v', 'i', 'q', 'B', 'z', '6', 'r', 'k', 'C', 'y', '1', '2', 'm', 'U',
   'S', 'D', 'Q', 'X', '9', 'R', 'd', 'o', 'Z', 'f']

def XOR_CODE : Nat := 23442827791579

def MASK_CODE : Nat := 2251799813685247

def MAX_AID : Nat := 1 <<< 51

def BASE : Nat := 58

/-- `data.index(ch)`: position of a character in the alphabet; `none` embeds
Python's `ValueError` when the character is absent. -/
def alphaIdx (c : Char) : Option Nat :=
  ALPHABET.findIdx? (fun a => a = c)

/-- Python's simultaneous swap `l[i], l[j] = l[j], l[i]` (both reads from the
original list, then both writes). -/
def swapPos (l : List Char) (i j : Nat) : List Char :=
  (l.set i (l.getD j 'A')).set j (l.getD i 'A')

/-- The accumulation loop of `bvid2aid`: `tmp = tmp * BASE + data.index(ch)`,
failing (`none`) on a character outside the alphabet. -/
def foldBody : List Char → Nat → Option Nat
  | [], acc => some acc
  | c :: rest, acc =>
    match alphaIdx c with
    | none => none
    | some i => foldBody rest (acc * BASE + i)

/-- `bvid2aid`: swap positions 3↔9 and 4↔7, drop the first three characters,
fold the rest in base 58, then mask and XOR.  `none` embeds the `IndexError`
raised by the swap when the string has fewer than 10 characters and the
`ValueError` raised by `data.index` on a character outside the alphabet. -/
def bvid2aid (bvid : String) : Option Nat :=
  let cs := bvid.data
  if cs.length < 10 then none
  else
    let cs2 := swapPos (swapPos cs 3 9) 4 7
    (foldBody (cs2.drop 3) 0).map (fun tmp => (tmp &&& MASK_CODE) ^^^ XOR_CODE)

/-- The initial 12-byte buffer `[b"B", b"V", b"1", b"0", ..., b"0"]`. -/
def initBytes : List Char :=
  ['B', 'V', '1', '0', '0', '0', '0', '0', '0', '0', '0', '0']

/-- The division loop of `aid2bvid`, with an explicit fuel bound (`tmp`
strictly decreases each iteration, so fuel `tmp` never runs out; see
`fillLoop_unfold`): while `tmp != 0`, write `data[tmp % BASE]` at `bvIdx`,
divide `tmp` by `BASE`, decrement `bvIdx`. -/
def fillGo : Nat → Nat → Nat → List Char → List Char
  | 0, _, _, l => l
  | fuel + 1, tmp, bvIdx, l =>
    if tmp = 0 then l
    else fillGo fuel (tmp / BASE) (bvIdx - 1) (l.set bvIdx (ALPHABET.getD (tmp % BASE) '0'))

/-- The division loop of `aid2bvid` (`while int(tmp) != 0: ...`). -/
def fillLoop (tmp bvIdx : Nat) (l : List Char) : List Char :=
  fillGo tmp tmp bvIdx l

/-- `aid2bvid`: fill the buffer from `(MAX_AID | aid) ^ XOR_CODE`, then swap
positions 3↔9 and 4↔7 and join. -/
def aid2bvid (aid : Nat) : String :=
  let tmp := (MAX_AID ||| aid) ^^^ XOR_CODE
  ⟨swapPos (swapPos (fillLoop tmp 11 initBytes) 3 9) 4 7⟩

/-! ### Codec lemmas -/

lemma fillGo_fuel (f₁ : Nat) : ∀ f₂ tmp bvIdx l, tmp ≤ f₁ → tmp ≤ f₂ →
    fillGo f₁ tmp bvIdx l = fillGo f₂ tmp bvIdx l := by
  induction f₁ with
  | zero =>
    intro f₂ tmp bvIdx l h1 _
    obtain rfl : tmp = 0 := Nat.le_zero.mp h1
    cases f₂ <;> rfl
  | succ f ih =>
    intro f₂ tmp bvIdx l h1 h2
    cases f₂ with
    | zero =>
      obtain rfl : tmp = 0 := Nat.le_zero.mp h2
      rfl
    | succ f₂ =>
      by_cases h : tmp = 0
      · subst h; rfl
      · simp only [fillGo, if_neg h]
        have hd : tmp / BASE < tmp :=
          Nat.div_lt_self (Nat.pos_of_ne_zero h) (by norm_num [BASE])
        exact ih f₂ (tmp / BASE) _ _ (by omega) (by omega)

lemma fillLoop_unfold (tmp bvIdx : Nat) (l : List Char) :
    fillLoop tmp bvIdx l =
      if tmp = 0 then l
      else fillLoop (tmp / 58) (bvIdx - 1) (l.set bvIdx (ALPHABET.getD (tmp % 58) '0')) := by
  by_cases h : tmp = 0
  · subst h; rfl
  · rw [if_neg h]
    obtain ⟨f, rfl⟩ : ∃ f, tmp = f + 1 := ⟨tmp - 1, by omega⟩
    show fillGo (f + 1) (f + 1) bvIdx l = _
    simp only [fillGo, if_neg h]
    have hd : (f + 1) / BASE < f + 1 :=
      Nat.div_lt_self (by omega) (by norm_num [BASE])
    have hb : BASE = 58 := rfl
    rw [hb] at hd ⊢
    exact fillGo_fuel f _ _ _ _ (by omega) (le_refl _)

lemma fill_explicit (t : Nat) (h1 : 2251799813685248 ≤ t) (h2 : t < 4503599627370496) :
    fillLoop t 11 initBytes =
      ['B', 'V', '1',
       ALPHABET.getD (t / 58 / 58 / 58 / 58 / 58 / 58 / 58 / 58 % 58) '0',
       ALPHABET.getD (t / 58 / 58 / 58 / 58 / 58 / 58 / 58 % 58) '0',
       ALPHABET.getD (t / 58 / 58 / 58 / 58 / 58 / 58 % 58) '0',
       ALPHABET.getD (t / 58 / 58 / 58 / 58 / 58 % 58) '0',
       ALPHABET.getD (t / 58 / 58 / 58 / 58 % 58) '0',
       ALPHABET.getD (t / 58 / 58 / 58 % 58) '0',
       ALPHABET.getD (t / 58 / 58 % 58) '0',
       ALPHABET.getD (t / 58 % 58) '0',
       ALPHABET.getD (t % 58) '0'] := by
  rw [fillLoop_unfold, if_neg (by omega)]
  rw [fillLoop_unfold, if_neg (by omega)]
  rw [fillLoop_unfold, if_neg (by omega)]
  rw [fillLoop_unfold, if_neg (by omega)]
  rw [fillLoop_unfold, if_neg (by omega)]
  rw [fillLoop_unfold, if_neg (by omega)]
  rw [fillLoop_unfold, if_neg (by omega)]
  rw [fillLoop_unfold, if_neg (by omega)]
  rw [fillLoop_unfold, if_neg (by omega)]
  rw [fillLoop_unfold, if_pos (by omega)]
  rfl

lemma encode_swap_explicit (b0 b1 b2 b3 b4 b5 b6 b7 b8 b9 b10 b11 : Char) :
    swapPos (swapPos [b0, b1, b2, b3, b4, b5, b6, b7, b8, b9, b10, b11] 3 9) 4 7 =
      [b0, b1, b2, b9, b7, b5, b6, b4, b8, b3, b10, b11] := rfl

lemma decode_explicit (c0 c1 c2 c3 c4 c5 c6 c7 c8 c9 c10 c11 : Char) :
    bvid2aid ⟨[c0, c1, c2, c3, c4, c5, c6, c7, c8, c9, c10, c11]⟩ =
      (foldBody [c9, c7, c5, c6, c4, c8, c3, c10, c11] 0).map
        (fun tmp => (tmp &&& MASK_CODE) ^^^ XOR_CODE) := rfl

lemma alpha_g : ∀ i, i < 58 → alphaIdx (ALPHABET.getD i '0') = some i := by decide

lemma alpha_mem : ∀ i, i < 58 → ALPHABET.getD i '0' ∈ ALPHABET ∧ ALPHABET.getD i '0' ≠ '0' := by
  decide

lemma or_two_pow_eq_add {k a : Nat} (h : a < 2 ^ k) : 2 ^ k ||| a = 2 ^ k + a := by
  apply Nat.eq_of_testBit_eq
  intro i
  rcases lt_trichotomy i k with hik | rfl | hki
  · rw [Nat.testBit_or, Nat.testBit_two_pow_of_ne (by omega),
      Nat.testBit_two_pow_add_gt hik]
    simp
  · rw [Nat.testBit_or, Nat.testBit_two_pow_self, Nat.testBit_two_pow_add_eq,
      Nat.testBit_lt_two_pow h]
    simp
  · have h1 : a.testBit i = false := by
      have : a < 2 ^ i := lt_of_lt_of_le h (Nat.pow_le_pow_right (by norm_num) (by omega))
      exact Nat.testBit_lt_two_pow this
    have h2 : (2 ^ k + a).testBit i = false := by
      have he : (2 : Nat) ^ (k + 1) = 2 ^ k + 2 ^ k := by ring
      have hpow : (2 : Nat) ^ (k + 1) ≤ 2 ^ i := Nat.pow_le_pow_right (by norm_num) (by omega)
      exact Nat.testBit_lt_two_pow (by omega)
    rw [Nat.testBit_or, Nat.testBit_two_pow_of_ne (by omega), h1, h2]
    simp

lemma add_two_pow_xor {k a b : Nat} (ha : a < 2 ^ k) (hb : b < 2 ^ k) :
    (2 ^ k + a) ^^^ b = 2 ^ k + (a ^^^ b) := by
  apply Nat.eq_of_testBit_eq
  intro i
  rcases lt_trichotomy i k with hik | rfl | hki
  · rw [Nat.testBit_xor, Nat.testBit_two_pow_add_gt hik,
      Nat.testBit_two_pow_add_gt hik, Nat.testBit_xor]
  · rw [Nat.testBit_xor, Nat.testBit_two_pow_add_eq, Nat.testBit_two_pow_add_eq,
      Nat.testBit_lt_two_pow hb, Nat.testBit_lt_two_pow (Nat.xor_lt_two_pow ha hb),
      Nat.testBit_lt_two_pow ha]
    rfl
  · have he : (2 : Nat) ^ (k + 1) = 2 ^ k + 2 ^ k := by ring
    have hpow : (2 : Nat) ^ (k + 1) ≤ 2 ^ i := Nat.pow_le_pow_right (by norm_num) (by omega)
    have h1 : b.testBit i = false := by
      have : b < 2 ^ i := by omega
      exact Nat.testBit_lt_two_pow this
    have h2 : (2 ^ k + a).testBit i = false := Nat.testBit_lt_two_pow (by omega)
    have h3 : (2 ^ k + (a ^^^ b)).testBit i = false := by
      have := Nat.xor_lt_two_pow ha hb
      exact Nat.testBit_lt_two_pow (by omega)
    rw [Nat.testBit_xor, h1, h2, h3]
    rfl

lemma tmp_form (aid : Nat) (h : aid < 2 ^ 51) :
    (MAX_AID ||| aid) ^^^ XOR_CODE = 2 ^ 51 + (aid ^^^ XOR_CODE) := by
  have hm : MAX_AID = 2 ^ 51 := by norm_num [MAX_AID, Nat.shiftLeft_eq]
  have hx : XOR_CODE < 2 ^ 51 := by norm_num [XOR_CODE]
  rw [hm, or_two_pow_eq_add h, add_two_pow_xor h hx]

/-- Key auxiliary result: decoding the encoding of any in-range numeric id
recovers it. -/
lemma roundtrip_aux (aid : Nat) (h : aid < 2 ^ 51) :
    bvid2aid (aid2bvid aid) = some aid := by
  have hx : XOR_CODE < 2 ^ 51 := by norm_num [XOR_CODE]
  have hxa : aid ^^^ XOR_CODE < 2 ^ 51 := Nat.xor_lt_two_pow h hx
  have ht := tmp_form aid h
  have hp : (2 : Nat) ^ 51 = 2251799813685248 := by norm_num
  have h1 : 2251799813685248 ≤ (MAX_AID ||| aid) ^^^ XOR_CODE := by omega
  have h2 : (MAX_AID ||| aid) ^^^ XOR_CODE < 4503599627370496 := by omega
  show bvid2aid ⟨swapPos (swapPos
      (fillLoop ((MAX_AID ||| aid) ^^^ XOR_CODE) 11 initBytes) 3 9) 4 7⟩ = some aid
  rw [fill_explicit _ h1 h2, encode_swap_explicit, decode_explicit]
  set t := (MAX_AID ||| aid) ^^^ XOR_CODE with hteq
  have d8 := alpha_g (t / 58 / 58 / 58 / 58 / 58 / 58 / 58 / 58 % 58) (Nat.mod_lt _ (by norm_num))
  have d7 := alpha_g (t / 58 / 58 / 58 / 58 / 58 / 58 / 58 % 58) (Nat.mod_lt _ (by norm_num))
  have d6 := alpha_g (t / 58 / 58 / 58 / 58 / 58 / 58 % 58) (Nat.mod_lt _ (by norm_num))
  have d5 := alpha_g (t / 58 / 58 / 58 / 58 / 58 % 58) (Nat.mod_lt _ (by norm_num))
  have d4 := alpha_g (t / 58 / 58 / 58 / 58 % 58) (Nat.mod_lt _ (by norm_num))
  have d3 := alpha_g (t / 58 / 58 / 58 % 58) (Nat.mod_lt _ (by norm_num))
  have d2 := alpha_g (t / 58 / 58 % 58) (Nat.mod_lt _ (by norm_num))
  have d1 := alpha_g (t / 58 % 58) (Nat.mod_lt _ (by norm_num))
  have d0 := alpha_g (t % 58) (Nat.mod_lt _ (by norm_num))
  simp only [foldBody, d8, d7, d6, d5, d4, d3, d2, d1, d0, Option.map_some']
  congr 1
  have hb : BASE = 58 := rfl
  simp only [hb]
  have hacc : ((((((((0 * 58 + t / 58 / 58 / 58 / 58 / 58 / 58 / 58 / 58 % 58) * 58
      + t / 58 / 58 / 58 / 58 / 58 / 58 / 58 % 58) * 58
      + t / 58 / 58 / 58 / 58 / 58 / 58 % 58) * 58
      + t / 58 / 58 / 58 / 58 / 58 % 58) * 58
      + t / 58 / 58 / 58 / 58 % 58) * 58
      + t / 58 / 58 / 58 % 58) * 58
      + t / 58 / 58 % 58) * 58
      + t / 58 % 58) * 58 + t % 58 = t := by omega
  rw [hacc]
  have hmask : MASK_CODE = 2 ^ 51 - 1 := by norm_num [MASK_CODE]
  rw [hmask, Nat.and_pow_two_sub_one_eq_mod, ht, Nat.add_mod_left,
    Nat.mod_eq_of_lt hxa, Nat.xor_cancel_right]

/-! ### Python `in` on strings (substring test) -/

/-- Whether `pat` is a leading block of `s`. -/
def hasPfx : List Char → List Char → Bool
  | _, [] => true
  | [], _ :: _ => false
  | c :: cs, p :: ps => c = p && hasPfx cs ps

/-- Python's `pat in s` substring test: some suffix of `s` starts with `pat`. -/
def hasSub : List Char → List Char → Bool
  | [], pat => hasPfx [] pat
  | c :: cs, pat => hasPfx (c :: cs) pat || hasSub cs pat

/-- Python's default `str.strip()` whitespace set. -/
def isWS (c : Char) : Bool :=
  c = ' ' || c = '\t' || c = '\n' || c = '\r' || c = '\x0b' || c = '\x0c'

/-- Python `s.strip()`: remove leading and trailing whitespace. -/
def pyStrip (s : String) : String :=
  ⟨((s.data.dropWhile isWS).reverse.dropWhile isWS).reverse⟩

/-- Python `s.startswith(pre)`. -/
def pyStartsWith (s pre : String) : Bool := hasPfx s.data pre.data

/-- Python `s.replace("av", "")`: remove every (non-overlapping,
left-to-right) occurrence of `av`. -/
def removeAv : List Char → List Char
  | 'a' :: 'v' :: rest => removeAv rest
  | c :: rest => c :: removeAv rest
  | [] => []

/-! ### WBI signing canonicalization (lines 56-60 of the source)

`encWbi` sorts the parameter items by key (`dict(sorted(params.items()))`;
dictionary keys are unique, so the tuple comparison Python performs is key
comparison, and any stable sort models it — insertion sort here) and then
strips the characters `!'()*` from every value. -/

def BANNED : List Char := ['!', '\'', '(', ')', '*']

/-- `"".join(filter(lambda chr: chr not in "!'()*", str(v)))`. -/
def stripBanned (v : String) : String := ⟨v.data.filter (fun c => !(decide (c ∈ BANNED)))⟩

/-- Strict lexicographic comparison of two character lists by code point:
exactly Python's `<` on strings. -/
def keyLt : List Char → List Char → Bool
  | _, [] => false
  | [], _ :: _ => true
  | a :: as, b :: bs => if a < b then true else if b < a then false else keyLt as bs

/-- Python's `<=` on strings. -/
def keyLe (a b : List Char) : Bool := !(keyLt b a)

/-- The canonicalization step of `encWbi`: sort by key, strip every value. -/
def canonicalize (ps : List (String × String)) : List (String × String) :=
  (List.insertionSort (fun a b : String × String => keyLe a.1.data b.1.data = true) ps).map
    (fun kv => (kv.1, stripBanned kv.2))

/-! ### Constructor credential check (lines 98-127 of the source)

A credential argument is embedded as `Option String`: `none` is Python
`None` (absent), `some ""` is an empty token; both are falsy. -/

def credFalsy : Option String → Bool
  | none => true
  | some s => s.data.isEmpty

/-- The tool state after a successful construction: the stored cookie
values and the `has_credentials` flag. -/
structure ToolState where
  sessdata : String
  bili_jct : String
  buvid3 : String
  has_credentials : Bool
deriving DecidableEq

/-- The `missing_credentials` list built by `__init__`, in source order. -/
def missingNames (sessdata bili_jct buvid3 : Option String) : List String :=
  (if credFalsy sessdata then ["sessdata"] else []) ++
  (if credFalsy bili_jct then ["bili_jct"] else []) ++
  (if credFalsy buvid3 then ["buvid3"] else [])

/-- The `ValueError` message of `__init__`. -/
def missingMsg (names : List String) : String :=
  "所有凭证参数都是必需的。缺少: " ++ String.intercalate ", " names

/-- `BilibiliEnhancedTool.__init__`: raise (here `.error`) when any
credential is falsy, else store the cookie values. -/
def initTool (sessdata bili_jct buvid3 : Option String) : Except String ToolState :=
  if credFalsy sessdata || credFalsy bili_jct || credFalsy buvid3 then
    .error (missingMsg (missingNames sessdata bili_jct buvid3))
  else
    .ok ⟨sessdata.getD "", bili_jct.getD "", buvid3.getD "", true⟩

/-! ### Facade models

The network collaborators (`get_video_pages`, `get_subtitle_info`,
`download_subtitle`, `_make_request`) are abstracted as oracle arguments;
a `print` becomes an entry in a returned message trace; an exception
caught by a blanket `except` becomes the `none` result the handler
returns. -/

/-- Python list indexing `l[i]`, including negative indices from the end;
`none` embeds `IndexError`. -/
def pyIndex {α : Type} (l : List α) (i : Int) : Option α :=
  if 0 ≤ i then l.get? i.toNat
  else if (-i).toNat ≤ l.length then l.get? (l.length - (-i).toNat)
  else none

/-- One entry of the page list returned by `get_video_pages`. -/
structure Page where
  cid : Int
deriving DecidableEq

/-- One subtitle-track descriptor from the player info. -/
structure SubTrack where
  lan : String
  lan_doc : String
  subtitle_url : String
deriving DecidableEq

/-- One timed text fragment of a subtitle body. -/
structure Fragment where
  content : String
deriving DecidableEq

/-- `lang in subtitle.get('lan', '')`. -/
def matchesLang (t : SubTrack) (lang : String) : Bool :=
  hasSub t.lan.data lang.data

/-- The track-selection logic of `get_video_subtitle`: first track whose
language tag contains `lang`, else the first track of the list. -/
def selectTrack (tracks : List SubTrack) (lang : String) : Option SubTrack :=
  match tracks.find? (fun t => matchesLang t lang) with
  | some t => some t
  | none => tracks.head?

/-- The flattening loop of `get_video_subtitle`: trim each fragment, join
the non-empty ones with a newline, strip the result. -/
def flattenBody (frags : List Fragment) : String :=
  pyStrip (frags.foldl (fun acc f =>
    let c := pyStrip f.content
    if c.data.isEmpty then acc else acc ++ c ++ "\n") "")

def invalidPageMsg (page : Int) : String := "无效的分P页码: " ++ toString page

def subtitleFailMsg : String := "获取字幕文本失败: list index out of range"

def fallbackMsg (lang doc : String) : String := "未找到" ++ lang ++ "字幕，使用" ++ doc ++ "字幕"

def noSubtitleMsg : String := "没有可用的字幕"

def emptyUrlMsg : String := "字幕URL为空"

/-- The message printed when no track matches the requested language and
the first track is used instead (empty trace when a track matched). -/
def fallbackTrace (tracks : List SubTrack) (lang : String) : List String :=
  match tracks.find? (fun t => matchesLang t lang) with
  | some _ => []
  | none => [fallbackMsg lang ((tracks.headD ⟨"", "", ""⟩).lan_doc)]

/-- `get_video_subtitle` (lines 442-506): page lookup, track selection,
download, flatten.  `pages` is the `get_video_pages` result, `subInfo`
the `get_subtitle_info` collaborator keyed by cid, `download` the
`download_subtitle` collaborator keyed by URL.  Returns the value Python
returns plus the trace of messages printed inside this function. -/
def get_video_subtitle (pages : Option (List Page))
    (subInfo : Int → Option (List SubTrack))
    (download : String → Option (List Fragment))
    (page : Int) (lang : String) : Option String × List String :=
  match pages with
  | none => (none, [invalidPageMsg page])
  | some ps =>
    if ps.isEmpty || page > (ps.length : Int) then (none, [invalidPageMsg page])
    else
      match pyIndex ps (page - 1) with
      | none => (none, [subtitleFailMsg])
      | some pg =>
        match subInfo pg.cid with
        | none => (none, [])
        | some tracks =>
          if tracks.isEmpty then (none, [])
          else
            match selectTrack tracks lang with
            | none => (none, fallbackTrace tracks lang ++ [noSubtitleMsg])
            | some target =>
              if target.subtitle_url.data.isEmpty then
                (none, fallbackTrace tracks lang ++ [emptyUrlMsg])
              else
                match download target.subtitle_url with
                | none => (none, fallbackTrace tracks lang)
                | some body =>
                  if body.isEmpty then (none, fallbackTrace tracks lang)
                  else (some (flattenBody body), fallbackTrace tracks lang)

/-- Outcome of `_make_request`: a decoded JSON response (`code`,
`message`, `data`) or a raised exception. -/
structure ApiResp where
  code : Int
  message : String
  data : List (String × String)
deriving DecidableEq

inductive ReqResult where
  | resp (r : ApiResp)
  | exn (msg : String)
deriving DecidableEq

/-- Python `s.isdigit()` (false on the empty string). -/
def isDigitStr (s : String) : Bool :=
  !s.isEmpty && s.data.all Char.isDigit

def digitsVal : List Char → Option Nat
  | [] => none
  | cs =>
    if cs.all Char.isDigit then
      some (cs.foldl (fun a c => a * 10 + (c.toNat - 48)) 0)
    else none

/-- Python `int(s)` on a decimal string, `none` embedding `ValueError`. -/
def pyToInt (s : String) : Option Int :=
  match (pyStrip s).data with
  | '-' :: rest => (digitsVal rest).map (fun n => -(n : Int))
  | '+' :: rest => (digitsVal rest).map (fun n => (n : Int))
  | cs => (digitsVal cs).map (fun n => (n : Int))

/-- The shared tail of `get_video_info`: call the view endpoint keyed by
the BV id and unwrap the response envelope (`code != 0` is an error). -/
def callView (request : String → ReqResult) (bvid : String) :
    Option (List (String × String)) × List String :=
  match request bvid with
  | .exn m => (none, ["获取视频信息失败: " ++ m])
  | .resp r =>
    if r.code ≠ 0 then (none, ["API返回错误: " ++ r.message])
    else (some r.data, [])

/-- `get_video_info` (lines 207-258): id-format dispatch, request, envelope
unwrap.  All failure paths print a diagnostic and return `None`; the
success payload (the `data` dictionary the info fields are read from) is
returned as is.  A negative parsed numeric id makes the Python encoder
raise `IndexError` (its division loop never reaches 0), caught by the
blanket handler. -/
def get_video_info (request : String → ReqResult) (video_id : String) :
    Option (List (String × String)) × List String :=
  if pyStartsWith video_id "BV" then
    match bvid2aid video_id with
    | none => (none, ["获取视频信息失败: 标识符转换错误"])
    | some _ => callView request video_id
  else if pyStartsWith video_id "av" || isDigitStr video_id then
    match pyToInt ⟨removeAv video_id.data⟩ with
    | none => (none, ["获取视频信息失败: 数值解析错误"])
    | some aid =>
      if aid < 0 then (none, ["获取视频信息失败: 下标越界"])
      else callView request (aid2bvid aid.toNat)
  else (none, ["无效的视频ID格式: " ++ video_id])

/-! ### Further codec lemmas used by the claim theorems -/

lemma list_len12 {l : List Char} (h : l.length = 12) :
    ∃ c0 c1 c2 c3 c4 c5 c6 c7 c8 c9 c10 c11,
      l = [c0, c1, c2, c3, c4, c5, c6, c7, c8, c9, c10, c11] := by
  rcases l with _ | ⟨c0, l⟩
  · simp at h
  rcases l with _ | ⟨c1, l⟩
  · simp at h
  rcases l with _ | ⟨c2, l⟩
  · simp at h
  rcases l with _ | ⟨c3, l⟩
  · simp at h
  rcases l with _ | ⟨c4, l⟩
  · simp at h
  rcases l with _ | ⟨c5, l⟩
  · simp at h
  rcases l with _ | ⟨c6, l⟩
  · simp at h
  rcases l with _ | ⟨c7, l⟩
  · simp at h
  rcases l with _ | ⟨c8, l⟩
  · simp at h
  rcases l with _ | ⟨c9, l⟩
  · simp at h
  rcases l with _ | ⟨c10, l⟩
  · simp at h
  rcases l with _ | ⟨c11, l⟩
  · simp at h
  simp only [List.length_cons] at h
  obtain rfl : l = [] := List.length_eq_zero.mp (by omega)
  exact ⟨c0, c1, c2, c3, c4, c5, c6, c7, c8, c9, c10, c11, rfl⟩

lemma drop3_cons (x0 x1 x2 : Char) (l : List Char) :
    List.drop 3 (x0 :: x1 :: x2 :: l) = l := rfl

lemma foldBody_none : ∀ (l : List Char) (acc : Nat),
    (∃ c ∈ l, alphaIdx c = none) → foldBody l acc = none := by
  intro l
  induction l with
  | nil =>
    rintro acc ⟨c, hc, -⟩
    exact absurd hc (List.not_mem_nil c)
  | cons x xs ih =>
    rintro acc ⟨c, hc, hnone⟩
    rcases List.mem_cons.mp hc with rfl | hmem
    · simp only [foldBody, hnone]
    · cases hx : alphaIdx x with
      | none => simp [foldBody, hx]
      | some i =>
        simp only [foldBody, hx]
        exact ih _ ⟨c, hmem, hnone⟩

/-! ### Claim theorems: identifier codec -/

/-- C1: for every numeric id `n` with `0 ≤ n < 2^51`, decoding the encoding
is the identity: `bvid2aid (aid2bvid n) = n`. -/
theorem C1_decode_encode_roundtrip (n : Nat) (h : n < 2 ^ 51) :
    bvid2aid (aid2bvid n) = some n :=
  roundtrip_aux n h

theorem C1_witness : 170001 < 2 ^ 51 ∧ bvid2aid (aid2bvid 170001) = some 170001 :=
  ⟨by norm_num, C1_decode_encode_roundtrip 170001 (by norm_num)⟩

/-- C2 counterexample: `"BV1FFFFFFFFF"` is validly formed in the claim's
sense — 12 characters, prefix `BV1`, body drawn from the 58-symbol
alphabet, decoding to an in-range numeric id — yet re-encoding its
decoding does not reproduce it. -/
theorem C2_counterexample :
    "BV1FFFFFFFFF".data.length = 12 ∧
    "BV1FFFFFFFFF".data.take 3 = ['B', 'V', '1'] ∧
    (∀ c ∈ "BV1FFFFFFFFF".data.drop 3, c ∈ ALPHABET) ∧
    bvid2aid "BV1FFFFFFFFF" = some 23442827791579 ∧
    23442827791579 < 2 ^ 51 ∧
    aid2bvid 23442827791579 ≠ "BV1FFFFFFFFF" := by decide

/-- C2 amended: re-encoding the decoding is the identity for every coded id
in the image of the encoder (the ids the tool itself produces), i.e. for
`s = aid2bvid n` with `n < 2^51`: `aid2bvid (bvid2aid s) = s`. -/
theorem C2_encode_decode_roundtrip (s : String)
    (hs : ∃ n, n < 2 ^ 51 ∧ s = aid2bvid n) :
    ∃ m, bvid2aid s = some m ∧ aid2bvid m = s := by
  obtain ⟨n, hn, rfl⟩ := hs
  exact ⟨n, roundtrip_aux n hn, rfl⟩

theorem C2_witness :
    (∃ n, n < 2 ^ 51 ∧ "BV1xx411c7mD" = aid2bvid n) ∧
    ∃ m, bvid2aid "BV1xx411c7mD" = some m ∧ aid2bvid m = "BV1xx411c7mD" :=
  ⟨⟨2, by norm_num, by decide⟩,
   C2_encode_decode_roundtrip "BV1xx411c7mD" ⟨2, by norm_num, by decide⟩⟩

/-- C9: for every `n < 2^51` the encoder output has exactly 12 characters,
starts with `BV1`, and its 9 body characters are all drawn from the
58-symbol alphabet — the `'0'` filler never survives. -/
theorem C9_encoder_output_wellformed (n : Nat) (h : n < 2 ^ 51) :
    (aid2bvid n).data.length = 12 ∧
    (aid2bvid n).data.take 3 = ['B', 'V', '1'] ∧
    ∀ c ∈ (aid2bvid n).data.drop 3, c ∈ ALPHABET ∧ c ≠ '0' := by
  have ht := tmp_form n h
  have hp : (2 : Nat) ^ 51 = 2251799813685248 := by norm_num
  have hxa : n ^^^ XOR_CODE < 2 ^ 51 :=
    Nat.xor_lt_two_pow h (by norm_num [XOR_CODE])
  have h1 : 2251799813685248 ≤ (MAX_AID ||| n) ^^^ XOR_CODE := by omega
  have h2 : (MAX_AID ||| n) ^^^ XOR_CODE < 4503599627370496 := by omega
  have hform : (aid2bvid n).data =
      ['B', 'V', '1',
       ALPHABET.getD (((MAX_AID ||| n) ^^^ XOR_CODE) / 58 / 58 % 58) '0',
       ALPHABET.getD (((MAX_AID ||| n) ^^^ XOR_CODE) / 58 / 58 / 58 / 58 % 58) '0',
       ALPHABET.getD (((MAX_AID ||| n) ^^^ XOR_CODE) / 58 / 58 / 58 / 58 / 58 / 58 % 58) '0',
       ALPHABET.getD (((MAX_AID ||| n) ^^^ XOR_CODE) / 58 / 58 / 58 / 58 / 58 % 58) '0',
       ALPHABET.getD (((MAX_AID ||| n) ^^^ XOR_CODE) / 58 / 58 / 58 / 58 / 58 / 58 / 58 % 58) '0',
       ALPHABET.getD (((MAX_AID ||| n) ^^^ XOR_CODE) / 58 / 58 / 58 % 58) '0',
       ALPHABET.getD (((MAX_AID ||| n) ^^^ XOR_CODE) / 58 / 58 / 58 / 58 / 58 / 58 / 58 / 58 % 58) '0',
       ALPHABET.getD (((MAX_AID ||| n) ^^^ XOR_CODE) / 58 % 58) '0',
       ALPHABET.getD (((MAX_AID ||| n) ^^^ XOR_CODE) % 58) '0'] := by
    show (⟨swapPos (swapPos
        (fillLoop ((MAX_AID ||| n) ^^^ XOR_CODE) 11 initBytes) 3 9) 4 7⟩ : String).data = _
    rw [fill_explicit _ h1 h2, encode_swap_explicit]
  refine ⟨by rw [hform]; rfl, by rw [hform]; rfl, ?_⟩
  intro c hc
  rw [hform, drop3_cons] at hc
  simp only [List.mem_cons, List.not_mem_nil, or_false] at hc
  rcases hc with rfl | rfl | rfl | rfl | rfl | rfl | rfl | rfl | rfl <;>
    exact alpha_mem _ (Nat.mod_lt _ (by norm_num))

theorem C9_witness :
    0 < 2 ^ 51 ∧
    ((aid2bvid 0).data.length = 12 ∧
     (aid2bvid 0).data.take 3 = ['B', 'V', '1'] ∧
     ∀ c ∈ (aid2bvid 0).data.drop 3, c ∈ ALPHABET ∧ c ≠ '0') :=
  ⟨by norm_num, C9_encoder_output_wellformed 0 (by norm_num)⟩

/-- C10: the decoder never inspects the first three characters: two
12-character inputs that agree from position 3 on decode identically,
whatever their first three characters are. -/
theorem C10_prefix_never_inspected (s t : String)
    (hs : s.data.length = 12) (ht : t.data.length = 12)
    (hagree : s.data.drop 3 = t.data.drop 3) :
    bvid2aid s = bvid2aid t := by
  obtain ⟨cs⟩ := s
  obtain ⟨ct⟩ := t
  have hcs : cs.length = 12 := hs
  have hct : ct.length = 12 := ht
  have hag : cs.drop 3 = ct.drop 3 := hagree
  obtain ⟨a0, a1, a2, a3, a4, a5, a6, a7, a8, a9, a10, a11, rfl⟩ := list_len12 hcs
  obtain ⟨b0, b1, b2, b3, b4, b5, b6, b7, b8, b9, b10, b11, rfl⟩ := list_len12 hct
  rw [drop3_cons, drop3_cons] at hag
  simp only [List.cons.injEq, and_true] at hag
  obtain ⟨rfl, rfl, rfl, rfl, rfl, rfl, rfl, rfl, rfl⟩ := hag
  rw [decode_explicit, decode_explicit]

theorem C10_witness :
    "BV1GJ411x7h7".data.length = 12 ∧
    "xQzGJ411x7h7".data.length = 12 ∧
    "BV1GJ411x7h7".data.drop 3 = "xQzGJ411x7h7".data.drop 3 ∧
    bvid2aid "BV1GJ411x7h7" = bvid2aid "xQzGJ411x7h7" :=
  ⟨by decide, by decide, by decide,
   C10_prefix_never_inspected "BV1GJ411x7h7" "xQzGJ411x7h7" (by decide) (by decide) (by decide)⟩

/-- C4 counterexample: the decoder does not reject every too-short or
alphabet-violating input.  A 10-character input (shorter than the expected
12) decodes silently to a number, and so does a 12-character input whose
first three characters are not in the alphabet. -/
theorem C4_counterexample :
    "BV1FFFFFFF".data.length = 10 ∧
    bvid2aid "BV1FFFFFFF" = some 23442827791579 ∧
    ('!' ∉ ALPHABET) ∧ '!' ∈ "!!!FFFFFFFFF".data ∧
    bvid2aid "!!!FFFFFFFFF" = some 23442827791579 := by decide

/-- C4 amended: the decoder fails (raises, embedded as `none`) exactly on
inputs shorter than 10 characters — the index-9 swap raises `IndexError` —
and on inputs one of whose nine consumed characters (positions 3..11 after
the two swaps) lies outside the 58-symbol alphabet, where `data.index`
raises `ValueError`.  Characters in the first three positions are never
checked, and lengths 10 and 11 are silently accepted. -/
theorem C4_decoder_failure_conditions (s : String) :
    (s.data.length < 10 → bvid2aid s = none) ∧
    ((∃ c ∈ (swapPos (swapPos s.data 3 9) 4 7).drop 3, alphaIdx c = none) →
      bvid2aid s = none) := by
  constructor
  · intro h
    simp only [bvid2aid]
    rw [if_pos h]
  · intro hbad
    by_cases hlen : s.data.length < 10
    · simp only [bvid2aid]
      rw [if_pos hlen]
    · simp only [bvid2aid]
      rw [if_neg hlen, foldBody_none _ _ hbad]
      rfl

theorem C4_witness :
    ("BV".data.length < 10 ∧ bvid2aid "BV" = none) ∧
    ((∃ c ∈ (swapPos (swapPos "BV1!FFFFFFFF".data 3 9) 4 7).drop 3, alphaIdx c = none) ∧
      bvid2aid "BV1!FFFFFFFF" = none) :=
  ⟨⟨by decide, (C4_decoder_failure_conditions "BV").1 (by decide)⟩,
   ⟨by decide, (C4_decoder_failure_conditions "BV1!FFFFFFFF").2 (by decide)⟩⟩

/-! ### Claim theorems: WBI canonicalization -/

/-- C6: the canonicalization inside `encWbi` sorts the parameters by key
(lexicographically) and strips the characters `!'()*` from every value,
for every input; in particular `{b: "x", a: "y!z"}`, in either input
order, canonicalizes to `[("a", "yz"), ("b", "x")]`. -/
lemma keyLt_asymm : ∀ a b, keyLt a b = true → keyLt b a = false := by
  intro a
  induction a with
  | nil =>
    intro b h
    cases b with
    | nil => simp [keyLt] at h
    | cons y ys => simp [keyLt]
  | cons x xs ih =>
    intro b h
    cases b with
    | nil => simp [keyLt] at h
    | cons y ys =>
      simp only [keyLt] at h ⊢
      rcases lt_trichotomy x y with hxy | rfl | hyx
      · rw [if_neg (lt_asymm hxy), if_pos hxy]
      · rw [if_neg (lt_irrefl x), if_neg (lt_irrefl x)] at h ⊢
        exact ih ys h
      · rw [if_neg (lt_asymm hyx), if_pos hyx] at h
        exact absurd h (by simp)

lemma keyLt_connex : ∀ a b, keyLt a b = false → keyLt b a = false → a = b := by
  intro a
  induction a with
  | nil =>
    intro b h _
    cases b with
    | nil => rfl
    | cons y ys => simp [keyLt] at h
  | cons x xs ih =>
    intro b h h'
    cases b with
    | nil => simp [keyLt] at h'
    | cons y ys =>
      simp only [keyLt] at h h'
      rcases lt_trichotomy x y with hxy | rfl | hyx
      · rw [if_pos hxy] at h
        exact absurd h (by simp)
      · rw [if_neg (lt_irrefl x), if_neg (lt_irrefl x)] at h h'
        rw [ih ys h h']
      · rw [if_pos hyx] at h'
        exact absurd h' (by simp)

lemma keyLt_trans : ∀ a b c, keyLt a b = true → keyLt b c = true → keyLt a c = true := by
  intro a
  induction a with
  | nil =>
    intro b c hab hbc
    cases c with
    | nil =>
      cases b with
      | nil => simp [keyLt] at hab
      | cons y ys => simp [keyLt] at hbc
    | cons z zs => simp [keyLt]
  | cons x xs ih =>
    intro b c hab hbc
    cases b with
    | nil => simp [keyLt] at hab
    | cons y ys =>
      cases c with
      | nil => simp [keyLt] at hbc
      | cons z zs =>
        simp only [keyLt] at hab hbc ⊢
        rcases lt_trichotomy x y with hxy | rfl | hyx
        · rcases lt_trichotomy y z with hyz | rfl | hzy
          · rw [if_pos (lt_trans hxy hyz)]
          · rw [if_pos hxy]
          · rw [if_neg (lt_asymm hzy), if_pos hzy] at hbc
            exact absurd hbc (by simp)
        · rw [if_neg (lt_irrefl x), if_neg (lt_irrefl x)] at hab
          rcases lt_trichotomy x z with hxz | rfl | hzx
          · rw [if_pos hxz]
          · rw [if_neg (lt_irrefl x), if_neg (lt_irrefl x)] at hbc ⊢
            exact ih ys zs hab hbc
          · rw [if_neg (lt_asymm hzx), if_pos hzx] at hbc
            exact absurd hbc (by simp)
        · rw [if_neg (lt_asymm hyx), if_pos hyx] at hab
          exact absurd hab (by simp)

lemma keyLe_trans {a b c : List Char} (hab : keyLe a b = true) (hbc : keyLe b c = true) :
    keyLe a c = true := by
  simp only [keyLe, Bool.not_eq_true'] at hab hbc ⊢
  by_contra hca
  rw [Bool.not_eq_false] at hca
  rcases hbc2 : keyLt b c with - | -
  · obtain rfl := keyLt_connex c b hbc hbc2
    rw [hca] at hab
    exact absurd hab (by simp)
  · have htr := keyLt_trans b c a hbc2 hca
    rw [htr] at hab
    exact absurd hab (by simp)

lemma keyLe_total (a b : List Char) : keyLe a b = true ∨ keyLe b a = true := by
  simp only [keyLe, Bool.not_eq_true']
  rcases h : keyLt b a with - | -
  · exact Or.inl rfl
  · exact Or.inr (keyLt_asymm b a h)

theorem C6_canonicalize_sorts_and_strips (ps : List (String × String)) :
    List.Pairwise (fun a b : String × String => keyLe a.1.data b.1.data = true)
      (canonicalize ps) ∧
    (∀ kv ∈ canonicalize ps, ∀ c ∈ kv.2.data, c ∉ BANNED) ∧
    canonicalize [("b", "x"), ("a", "y!z")] = [("a", "yz"), ("b", "x")] ∧
    canonicalize [("a", "y!z"), ("b", "x")] = [("a", "yz"), ("b", "x")] := by
  refine ⟨?_, ?_, by decide, by decide⟩
  · unfold canonicalize
    rw [List.pairwise_map]
    haveI : IsTotal (String × String) (fun a b : String × String => keyLe a.1.data b.1.data = true) :=
      ⟨fun a b => keyLe_total a.1.data b.1.data⟩
    haveI : IsTrans (String × String) (fun a b : String × String => keyLe a.1.data b.1.data = true) :=
      ⟨fun _ _ _ hab hbc => keyLe_trans hab hbc⟩
    exact (List.sorted_insertionSort _ ps).imp (fun h => h)
  · intro kv hkv c hc
    unfold canonicalize at hkv
    obtain ⟨⟨k, v⟩, hmem, rfl⟩ := List.mem_map.mp hkv
    have hf : c ∈ v.data.filter (fun c => !(decide (c ∈ BANNED))) := hc
    have := (List.mem_filter.mp hf).2
    simp only [Bool.not_eq_true', decide_eq_false_iff_not] at this
    exact this

theorem C6_witness :
    List.Pairwise (fun a b : String × String => keyLe a.1.data b.1.data = true)
      (canonicalize [("b", "x"), ("a", "y!z")]) ∧
    (∀ kv ∈ canonicalize [("b", "x"), ("a", "y!z")], ∀ c ∈ kv.2.data, c ∉ BANNED) ∧
    canonicalize [("b", "x"), ("a", "y!z")] = [("a", "yz"), ("b", "x")] ∧
    canonicalize [("a", "y!z"), ("b", "x")] = [("a", "yz"), ("b", "x")] :=
  C6_canonicalize_sorts_and_strips [("b", "x"), ("a", "y!z")]

/-! ### Claim theorems: constructor credential check -/

/-- C7: construction fails exactly when a credential token is empty or
absent, with an error message naming precisely the missing tokens (all of
them, not just the first); with three non-empty tokens it succeeds and
stores the credential set. -/
theorem C7_missing_credentials_all_named (sd bj bv : Option String) :
    ((credFalsy sd || credFalsy bj || credFalsy bv) = true →
      ∃ m, initTool sd bj bv = .error m ∧
        hasSub m.data "sessdata".data = credFalsy sd ∧
        hasSub m.data "bili_jct".data = credFalsy bj ∧
        hasSub m.data "buvid3".data = credFalsy bv) ∧
    ((credFalsy sd || credFalsy bj || credFalsy bv) = false →
      ∃ s j b, sd = some s ∧ bj = some j ∧ bv = some b ∧
        initTool sd bj bv = .ok ⟨s, j, b, true⟩) := by
  constructor
  · intro hf
    refine ⟨missingMsg (missingNames sd bj bv), by unfold initTool; rw [if_pos hf], ?_, ?_, ?_⟩ <;>
      cases hsd : credFalsy sd <;> cases hbj : credFalsy bj <;> cases hbv : credFalsy bv <;>
      simp only [missingNames, missingMsg, hsd, hbj, hbv] <;> decide
  · intro hok
    have hsd : credFalsy sd = false := by
      cases h : credFalsy sd
      · rfl
      · rw [h] at hok; simp at hok
    have hbj : credFalsy bj = false := by
      cases h : credFalsy bj
      · rfl
      · rw [h] at hok; simp at hok
    have hbv : credFalsy bv = false := by
      cases h : credFalsy bv
      · rfl
      · rw [h] at hok; simp at hok
    obtain ⟨s, rfl⟩ : ∃ s, sd = some s := by
      cases sd
      · simp [credFalsy] at hsd
      · exact ⟨_, rfl⟩
    obtain ⟨j, rfl⟩ : ∃ j, bj = some j := by
      cases bj
      · simp [credFalsy] at hbj
      · exact ⟨_, rfl⟩
    obtain ⟨b, rfl⟩ : ∃ b, bv = some b := by
      cases bv
      · simp [credFalsy] at hbv
      · exact ⟨_, rfl⟩
    refine ⟨s, j, b, rfl, rfl, rfl, ?_⟩
    unfold initTool
    rw [if_neg (by simp [hok])]
    rfl

theorem C7_witness :
    ∃ m, initTool (some "x") none (some "") = .error m ∧
      hasSub m.data "sessdata".data = credFalsy (some "x") ∧
      hasSub m.data "bili_jct".data = credFalsy (none : Option String) ∧
      hasSub m.data "buvid3".data = credFalsy (some "") :=
  (C7_missing_credentials_all_named (some "x") none (some "")).1 (by decide)

/-! ### Claim theorems: subtitle track selection -/

lemma find_first {α : Type} (p : α → Bool) :
    ∀ (l : List α) (a : α), l.find? p = some a →
      ∃ i, ∃ h : i < l.length, a = l.get ⟨i, h⟩ ∧ p a = true ∧
        ∀ j (hj : j < l.length), j < i → p (l.get ⟨j, hj⟩) = false := by
  intro l
  induction l with
  | nil => intro a h; simp at h
  | cons x xs ih =>
    intro a h
    by_cases hx : p x
    · rw [List.find?_cons_of_pos _ hx] at h
      obtain rfl : x = a := Option.some.inj h
      refine ⟨0, by simp, rfl, hx, ?_⟩
      intro j hj hji
      exact absurd hji (by omega)
    · rw [List.find?_cons_of_neg _ hx] at h
      obtain ⟨i, hi, ha, hp, hprev⟩ := ih a h
      refine ⟨i + 1, by simpa using Nat.succ_lt_succ hi, ha, hp, ?_⟩
      intro j hj hji
      cases j with
      | zero => simpa using hx
      | succ j =>
        have hj' : j < xs.length := by simpa using hj
        exact hprev j hj' (by omega)

/-- C8: on a non-empty track list, `get_video_subtitle` selects the first
track (in list order) whose language tag contains `lang` as a
case-sensitive substring; if no tag contains `lang`, it deterministically
selects the first track of the list. -/
theorem C8_first_matching_track_else_first (tracks : List SubTrack) (lang : String)
    (hne : tracks ≠ []) :
    ((∃ t ∈ tracks, matchesLang t lang = true) →
      ∃ i, ∃ h : i < tracks.length,
        selectTrack tracks lang = some (tracks.get ⟨i, h⟩) ∧
        matchesLang (tracks.get ⟨i, h⟩) lang = true ∧
        ∀ j (hj : j < tracks.length), j < i →
          matchesLang (tracks.get ⟨j, hj⟩) lang = false) ∧
    ((∀ t ∈ tracks, matchesLang t lang = false) →
      ∃ h : 0 < tracks.length, selectTrack tracks lang = some (tracks.get ⟨0, h⟩)) := by
  constructor
  · rintro ⟨t, ht, hmatch⟩
    have hsome : (tracks.find? (fun t => matchesLang t lang)).isSome :=
      List.find?_isSome.mpr ⟨t, ht, hmatch⟩
    obtain ⟨a, ha⟩ := Option.isSome_iff_exists.mp hsome
    obtain ⟨i, hi, haeq, hp, hprev⟩ := find_first _ tracks a ha
    refine ⟨i, hi, ?_, by rw [← haeq]; exact hp, hprev⟩
    unfold selectTrack
    rw [ha, ← haeq]
  · intro hnone
    have hfind : tracks.find? (fun t => matchesLang t lang) = none :=
      List.find?_eq_none.mpr (fun x hx => by simp [hnone x hx])
    unfold selectTrack
    rw [hfind]
    cases tracks with
    | nil => exact absurd rfl hne
    | cons x xs => exact ⟨by simp, rfl⟩

def c8Tracks : List SubTrack :=
  [⟨"en-US", "英语（美国）", "url-en"⟩, ⟨"ai-zh", "中文（自动生成）", "url-zh"⟩]

theorem C8_witness :
    c8Tracks ≠ [] ∧
    (((∃ t ∈ c8Tracks, matchesLang t "zh" = true) →
      ∃ i, ∃ h : i < c8Tracks.length,
        selectTrack c8Tracks "zh" = some (c8Tracks.get ⟨i, h⟩) ∧
        matchesLang (c8Tracks.get ⟨i, h⟩) "zh" = true ∧
        ∀ j (hj : j < c8Tracks.length), j < i →
          matchesLang (c8Tracks.get ⟨j, hj⟩) "zh" = false) ∧
    ((∀ t ∈ c8Tracks, matchesLang t "zh" = false) →
      ∃ h : 0 < c8Tracks.length, selectTrack c8Tracks "zh" = some (c8Tracks.get ⟨0, h⟩))) :=
  ⟨by decide, C8_first_matching_track_else_first c8Tracks "zh" (by decide)⟩

/-! ### Claim theorems: page-number handling in `get_video_subtitle` -/

def c3Pages : List Page := [⟨100⟩, ⟨200⟩]

def c3SubInfo : Int → Option (List SubTrack) := fun cid =>
  if cid = 200 then some [⟨"ai-zh", "中文（自动生成）", "u200"⟩]
  else some [⟨"ai-zh", "中文（自动生成）", "u100"⟩]

def c3Download : String → Option (List Fragment) := fun url =>
  if url = "u200" then some [⟨"最后一P的字幕"⟩] else some [⟨"第一P的字幕"⟩]

/-- C3: the claim (and the spec) require every page outside
`[1, len(pages)]` — including `page ≤ 0` — to yield the invalid-page
failure.  The code only checks `page > len(pages)`: `page = 0` falls
through to Python's negative indexing, `pages[-1]`, and the function
returns the subtitle text of the *last* page as a success, identical to
the result for `page = 2`; only the upper bound is rejected. -/
theorem C3_page_zero_fetches_last_page :
    get_video_subtitle (some c3Pages) c3SubInfo c3Download 0 "zh" =
      (some "最后一P的字幕", []) ∧
    get_video_subtitle (some c3Pages) c3SubInfo c3Download 2 "zh" =
      (some "最后一P的字幕", []) ∧
    get_video_subtitle (some c3Pages) c3SubInfo c3Download 3 "zh" =
      (none, [invalidPageMsg 3]) := by decide

/-! ### Claim theorems: facade failure reporting -/

def c5Request : String → ReqResult := fun _ => .resp ⟨-404, "啥都木有", []⟩

/-- C5 counterexample: two different failures — an invalid id format and a
non-zero remote API status — are both reported by printing a diagnostic
and returning the same bare `None`; the value handed to the caller is
neither typed nor inspectable, and the two causes are indistinguishable. -/
theorem C5_counterexample :
    (get_video_info c5Request "???").1 = none ∧
    (get_video_info c5Request "???").2 = ["无效的视频ID格式: ???"] ∧
    (get_video_info c5Request "BV1xx411c7mD").1 = none ∧
    (get_video_info c5Request "BV1xx411c7mD").2 = ["API返回错误: 啥都木有"] ∧
    (get_video_info c5Request "???").1 = (get_video_info c5Request "BV1xx411c7mD").1 := by
  decide

/-- C5 amended: no facade failure is returned as a typed, inspectable
value — every failure path of every modeled facade operation swallows its
cause into the same bare `None` return, with any diagnostic printed
rather than returned.  Concretely: (a) `get_video_info`, for every
request oracle and every input id, returns `None` exactly when it printed
a diagnostic — this covers all its failure classes (invalid id format,
decode failure, numeric-parse failure, negative id, transport exception,
non-zero remote status) and all its success paths; (b)
`get_video_subtitle`, for every collaborator oracle, page and language,
returns a non-`None` value only when every step succeeded (valid page
list and page number, subtitle info present and non-empty, a selected
track with a non-empty URL, a non-empty downloaded body) — equivalently,
every one of its failure paths returns the bare `None`. -/
theorem C5_every_failure_swallowed_to_none :
    (∀ (request : String → ReqResult) (video_id : String),
      (get_video_info request video_id).1 = none ↔
        (get_video_info request video_id).2 ≠ []) ∧
    (∀ (pages : Option (List Page)) (subInfo : Int → Option (List SubTrack))
        (download : String → Option (List Fragment)) (page : Int) (lang : String)
        (s : String),
      (get_video_subtitle pages subInfo download page lang).1 = some s →
      ∃ ps pg tracks target body,
        pages = some ps ∧ ps ≠ [] ∧ page ≤ (ps.length : Int) ∧
        pyIndex ps (page - 1) = some pg ∧
        subInfo pg.cid = some tracks ∧ tracks ≠ [] ∧
        selectTrack tracks lang = some target ∧
        target.subtitle_url.data ≠ [] ∧
        download target.subtitle_url = some body ∧ body ≠ [] ∧
        s = flattenBody body) := by
  constructor
  · intro request video_id
    unfold get_video_info callView
    by_cases h1 : pyStartsWith video_id "BV" = true
    · rw [if_pos h1]
      cases hb : bvid2aid video_id with
      | none => simp
      | some n =>
        cases hr : request video_id with
        | exn m => simp
        | resp r =>
          by_cases hc : r.code = 0
          · simp [hc]
          · simp [hc]
    · rw [if_neg h1]
      by_cases h2 : (pyStartsWith video_id "av" || isDigitStr video_id) = true
      · rw [if_pos h2]
        cases hi : pyToInt ⟨removeAv video_id.data⟩ with
        | none => simp
        | some aid =>
          by_cases ha : aid < 0
          · simp [ha]
          · cases hr : request (aid2bvid aid.toNat) with
            | exn m => simp [ha, hr]
            | resp r =>
              by_cases hc : r.code = 0
              · simp [ha, hr, hc]
              · simp [ha, hr, hc]
      · rw [if_neg h2]
        simp
  · intro pages subInfo download page lang s hs
    unfold get_video_subtitle at hs
    split at hs
    · simp at hs
    · rename_i ps
      split at hs
      · simp at hs
      · rename_i hcond
        have hps : ps ≠ [] := by
          intro h
          subst h
          simp at hcond
        have hpage : page ≤ (ps.length : Int) := by
          by_contra hgt
          exact hcond (by simp; omega)
        split at hs
        · simp at hs
        · rename_i pg hpi
          split at hs
          · simp at hs
          · rename_i tracks hsi
            split at hs
            · simp at hs
            · rename_i htr
              have htracks : tracks ≠ [] := by
                intro h
                subst h
                simp at htr
              split at hs
              · simp at hs
              · rename_i target hsel
                split at hs
                · simp at hs
                · rename_i hurl
                  have hu : target.subtitle_url.data ≠ [] := by
                    intro h
                    exact hurl (by simp [h])
                  split at hs
                  · simp at hs
                  · rename_i body hdl
                    split at hs
                    · simp at hs
                    · rename_i hbody
                      have hb : body ≠ [] := by
                        intro h
                        subst h
                        simp at hbody
                      simp only [Option.some.injEq] at hs
                      exact ⟨ps, pg, tracks, target, body, rfl, hps, hpage,
                        hpi, hsi, htracks, hsel, hu, hdl, hb, hs.symm⟩

def c5SubInfo : Int → Option (List SubTrack) := fun _ =>
  some [⟨"ai-zh", "中文（自动生成）", "u1"⟩]

def c5Download : String → Option (List Fragment) := fun _ => some [⟨"你好"⟩]

theorem C5_witness :
    ((get_video_info c5Request "???").1 = none ↔
      (get_video_info c5Request "???").2 ≠ []) ∧
    ((get_video_subtitle (some [⟨7⟩]) c5SubInfo c5Download 1 "zh").1 = some "你好" ∧
      ∃ ps pg tracks target body,
        (some [⟨7⟩] : Option (List Page)) = some ps ∧ ps ≠ [] ∧ (1 : Int) ≤ (ps.length : Int) ∧
        pyIndex ps ((1 : Int) - 1) = some pg ∧
        c5SubInfo pg.cid = some tracks ∧ tracks ≠ [] ∧
        selectTrack tracks "zh" = some target ∧
        target.subtitle_url.data ≠ [] ∧
        c5Download target.subtitle_url = some body ∧ body ≠ [] ∧
        "你好" = flattenBody body) :=
  ⟨C5_every_failure_swallowed_to_none.1 c5Request "???",
   by decide,
   C5_every_failure_swallowed_to_none.2 (some [⟨7⟩]) c5SubInfo c5Download 1 "zh" "你好"
     (by decide)⟩

end Bili
